import Mathlib

/-!
Verification of the trust/session core of the todoAppApiTutorial backend.

The development shallowly embeds, in Lean, the code of:
* `app/core/mongo.py` — document-store bootstrapper (`_wait_for_mongo`,
  `beanie_lifespan`, `get_client`);
* `app/core/redis.py` — key-value-store bootstrapper and the Session Store
  (`_wait_for_redis`, `redis_lifespan`, `get_redis`, `_session_key`,
  `store_session_for_user`, `is_user_session_active`, `revoke_user_session`);
* `app/services/authentication.py` and `app/services/authorization.py` —
  hashing, token and RBAC helpers whose shipped bodies are challenge stubs
  (their module docstrings say "The current bodies are stubs"); they are
  embedded here exactly as shipped, constant results included.

Python floats only ever hold exact dyadic values in these loops (0.25, 0.5,
multiplication by 1.5, `min` with 3.0 stay exactly representable for the
attempt counts involved), so delays are embedded as rationals.
-/

/-- Error kinds raised with `RuntimeError` in `app/core/mongo.py` and
`app/core/redis.py`. -/
inductive CoreErr where
  | notReady
  | notInitialized
  deriving DecidableEq, Repr

/-- Outcome of one `client.admin.command("ping")` call inside
`_wait_for_mongo`: the coroutine either returns (success) or raises an
exception, identified here by a numeric code. -/
inductive MongoPing where
  | ok
  | exc (e : Nat)
  deriving DecidableEq, Repr

/-- Outcome of one `client.ping()` call inside `_wait_for_redis`: the call
may return a truthy value (`True` / `"PONG"`), return a falsy value, or
raise an exception identified by a numeric code. -/
inductive RedisPing where
  | pong (truthy : Bool)
  | exc (e : Nat)
  deriving DecidableEq, Repr

/-- Observable outcome of one run of a readiness loop: whether it returned
successfully, how many times the probe was invoked, the sequence of
`asyncio.sleep` durations in order, and the last exception recorded in
`last_err` / `last_exc` (wrapped by the final `RuntimeError` on failure). -/
structure WaitTrace where
  success : Bool
  invocations : Nat
  sleeps : List ℚ
  lastErr : Option Nat
  deriving DecidableEq, Repr

/-- Loop body of `_wait_for_mongo` (`app/core/mongo.py` lines 16-29).
`i` is the index of the next probe invocation, `fuel` the remaining
iterations of `for _ in range(attempts)`, `sleeps` the accumulated sleep
durations (reversed). On an exception the code records it in `last_err`,
sleeps `delay`, then sets `delay *= 1.5` (no cap). -/
def waitForMongoGo (probes : Nat → MongoPing) (i fuel : Nat) (delay : ℚ)
    (sleeps : List ℚ) (lastErr : Option Nat) : WaitTrace :=
  match fuel with
  | 0 => ⟨false, i, sleeps.reverse, lastErr⟩
  | fuel + 1 =>
    match probes i with
    | .ok => ⟨true, i + 1, sleeps.reverse, lastErr⟩
    | .exc e =>
        waitForMongoGo probes (i + 1) fuel (delay * (3 / 2)) (delay :: sleeps)
          (some e)

/-- `_wait_for_mongo(client, attempts=..., delay=...)` with the probe
behaviour abstracted as a function from invocation index to outcome. -/
def wait_for_mongo (probes : Nat → MongoPing) (attempts : Nat) (delay : ℚ) :
    WaitTrace :=
  waitForMongoGo probes 0 attempts delay [] none

/-- `_wait_for_mongo` with its default arguments `attempts=10, delay=0.5`. -/
def wait_for_mongo_default (probes : Nat → MongoPing) : WaitTrace :=
  wait_for_mongo probes 10 (1 / 2)

/-- Cap applied by `_wait_for_redis`: `delay = min(delay * 1.5, 3.0)`. -/
def redisMaxDelay : ℚ := 3

/-- Loop body of `_wait_for_redis` (`app/core/redis.py` lines 37-50).
A truthy pong returns; a falsy pong falls through the `if` and the loop
continues with no sleep, no delay update and no `last_exc` update; an
exception records `last_exc`, sleeps `delay`, then sets
`delay = min(delay * 1.5, 3.0)`. -/
def waitForRedisGo (probes : Nat → RedisPing) (i fuel : Nat) (delay : ℚ)
    (sleeps : List ℚ) (lastExc : Option Nat) : WaitTrace :=
  match fuel with
  | 0 => ⟨false, i, sleeps.reverse, lastExc⟩
  | fuel + 1 =>
    match probes i with
    | .pong true => ⟨true, i + 1, sleeps.reverse, lastExc⟩
    | .pong false => waitForRedisGo probes (i + 1) fuel delay sleeps lastExc
    | .exc e =>
        waitForRedisGo probes (i + 1) fuel (min (delay * (3 / 2)) redisMaxDelay)
          (delay :: sleeps) (some e)

/-- `_wait_for_redis(client, attempts=..., delay=...)` with the probe
behaviour abstracted as a function from invocation index to outcome. -/
def wait_for_redis (probes : Nat → RedisPing) (attempts : Nat) (delay : ℚ) :
    WaitTrace :=
  waitForRedisGo probes 0 attempts delay [] none

/-- `_wait_for_redis` with its default arguments `attempts=20, delay=0.25`. -/
def wait_for_redis_default (probes : Nat → RedisPing) : WaitTrace :=
  wait_for_redis probes 20 (1 / 4)

/-- Expected sleep schedule of the document-store loop when every probe
raises: `d, d*1.5, d*1.5^2, ...` (uncapped). -/
def mongoBackoff (d : ℚ) : Nat → List ℚ
  | 0 => []
  | k + 1 => d :: mongoBackoff (d * (3 / 2)) k

/-- Expected sleep schedule of the key-value-store loop when every probe
raises: each next delay is `min(previous * 1.5, 3.0)`. -/
def redisBackoff (d : ℚ) : Nat → List ℚ
  | 0 => []
  | k + 1 => d :: redisBackoff (min (d * (3 / 2)) redisMaxDelay) k

/-- Index of the last exception recorded after `fuel` all-raising probe
invocations starting at index `i` (with prior value `le`). -/
def lastExcAfter (e : Nat → Nat) (le : Option Nat) (i fuel : Nat) :
    Option Nat :=
  match fuel with
  | 0 => le
  | f + 1 => some (e (i + f))

/-- State touched by the two lifespan context managers: the module-level
singleton slot (`_client` in `mongo.py`, `_redis` in `redis.py`), holding a
client identifier when set, plus the set of client identifiers on which
`close()` has been called. -/
structure LifespanState where
  singleton : Option Nat
  closed : List Nat
  deriving DecidableEq, Repr

/-- How the code scoped inside the lifespan (`yield`) exits. -/
inductive ExitPath where
  | normal
  | raised
  deriving DecidableEq, Repr

/-- `beanie_lifespan` (`app/core/mongo.py` lines 42-64), one full run:
assign `_client` to the freshly built client `c`; run `_wait_for_mongo`
(outcome `probeOk`) — a probe failure propagates before the `try`/`finally`
is entered; otherwise run `init_beanie` (outcome `initOk`) and the body
inside `try`, and in `finally` close the client and clear the singleton if
it is set. Returns the final state and whether an exception propagated. -/
def beanie_lifespan (st : LifespanState) (c : Nat) (probeOk initOk : Bool)
    (body : ExitPath) : LifespanState × Bool :=
  let st1 : LifespanState := { st with singleton := some c }
  if probeOk = false then
    (st1, true)
  else
    let raised : Bool := !initOk || decide (body = ExitPath.raised)
    let st2 : LifespanState :=
      match st1.singleton with
      | some x => { singleton := none, closed := x :: st1.closed }
      | none => { st1 with singleton := none }
    (st2, raised)

/-- `redis_lifespan` (`app/core/redis.py` lines 62-81), one full run: assign
`_redis` to the freshly built client `c`; run `_wait_for_redis` (outcome
`probeOk`) — a probe failure propagates before the `try`/`finally` is
entered; otherwise run the body inside `try`, and in `finally` close the
client and clear the singleton if it is set. -/
def redis_lifespan (st : LifespanState) (c : Nat) (probeOk : Bool)
    (body : ExitPath) : LifespanState × Bool :=
  let st1 : LifespanState := { st with singleton := some c }
  if probeOk = false then
    (st1, true)
  else
    let raised : Bool := decide (body = ExitPath.raised)
    let st2 : LifespanState :=
      match st1.singleton with
      | some x => { singleton := none, closed := x :: st1.closed }
      | none => { st1 with singleton := none }
    (st2, raised)

/-- A Python value appearing in a `meta` dict; `store_session_for_user`
coerces each with `str(v)` before storage. -/
inductive PyVal where
  | s (v : String)
  | i (v : Int)
  | b (v : Bool)
  deriving DecidableEq, Repr

/-- Python `str(v)` on the values a `meta` dict can hold here. -/
def pyStr : PyVal → String
  | .s v => v
  | .i v => toString v
  | .b v => cond v "True" "False"

/-- One Redis hash: its field/value pairs and its remaining time-to-live in
seconds (`-1` meaning "no expiry", Redis's state for a fresh key before
`EXPIRE` runs). -/
structure RedisRecord where
  fields : List (String × String)
  ttl : Int
  deriving DecidableEq, Repr

/-- The key-value store: an association from keys to hash records. -/
abbrev RedisState := List (String × RedisRecord)

/-- Set one field of a hash: overwrite the first existing binding in place,
or append a new binding. -/
def setField (fs : List (String × String)) (f v : String) :
    List (String × String) :=
  match fs with
  | [] => [(f, v)]
  | (f2, v2) :: rest =>
      if f2 = f then (f, v) :: rest else (f2, v2) :: setField rest f v

/-- Apply a field mapping left to right (`dict.update` / multi-field `HSET`
order). -/
def setFields (fs m : List (String × String)) : List (String × String) :=
  m.foldl (fun acc p => setField acc p.1 p.2) fs

/-- Redis `HSET key mapping`: write the given field/value pairs into the
hash at `key`, leaving any other existing fields of that hash intact;
a missing key is created (with no expiry). -/
def hset (st : RedisState) (key : String) (m : List (String × String)) :
    RedisState :=
  match List.lookup key st with
  | some _ =>
      st.map (fun p =>
        if p.1 = key then (p.1, { p.2 with fields := setFields p.2.fields m })
        else p)
  | none => st ++ [(key, { fields := setFields [] m, ttl := -1 })]

/-- Redis `EXPIRE key t`: set the remaining TTL of an existing key. -/
def expire (st : RedisState) (key : String) (t : Int) : RedisState :=
  st.map (fun p => if p.1 = key then (p.1, { p.2 with ttl := t }) else p)

/-- Redis `HGET key f` (with `decode_responses=True`, as the tests
configure): the stored string, or `None` for a missing key or field. -/
def hget (st : RedisState) (key f : String) : Option String :=
  match List.lookup key st with
  | none => none
  | some r => List.lookup f r.fields

/-- Redis `DEL key`. -/
def delKey (st : RedisState) (key : String) : RedisState :=
  st.filter (fun p => p.1 ≠ key)

/-- Remaining TTL recorded for a key, if the key exists. -/
def keyTTL (st : RedisState) (key : String) : Option Int :=
  (List.lookup key st).map (fun r => r.ttl)

/-- `get_redis` (`app/core/redis.py` lines 53-59): raise `RuntimeError`
("Redis client not initialized") when the module singleton `_redis` is
`None`, else return the client. -/
def get_redis (r : Option Unit) : Except CoreErr Unit :=
  match r with
  | none => .error .notInitialized
  | some c => .ok c

/-- `_session_key` (`app/core/redis.py` lines 87-92). -/
def session_key (kind username : String) : String :=
  "session:" ++ kind ++ ":" ++ username

/-- The `payload` dict built by `store_session_for_user`:
`{"jti": jti, "exp": str(exp_unix_ts)}` then `payload.update(meta2)` where
`meta2` has the stringified meta values (overwriting on key collision, as
`dict.update` does). The `if meta:` guard in the source only skips an empty
update, which is a no-op here. -/
def buildPayload (jti : String) (exp_unix_ts : Int)
    (meta : List (String × String)) : List (String × String) :=
  setFields [("jti", jti), ("exp", toString exp_unix_ts)] meta

/-- `store_session_for_user` (`app/core/redis.py` lines 95-128): fetch the
client via `get_redis` (raising before any store command when the singleton
is unset); compute `ttl = max(1, exp_unix_ts - int(time.time()))` (the
earlier loop-clock computation in the source is dead, immediately
overwritten); build the payload dict; then, in one transactional pipeline,
`HSET` the payload at `session:<kind>:<username>` and `EXPIRE` it to `ttl`.
`now` stands for `int(time.time())` at the write. -/
def store_session_for_user (redis : Option Unit) (st : RedisState) (now : Int)
    (username jti : String) (exp_unix_ts : Int) (kind : String)
    (meta : List (String × PyVal)) : RedisState × Except CoreErr Unit :=
  match get_redis redis with
  | .error e => (st, .error e)
  | .ok _ =>
    let ttl : Int := max 1 (exp_unix_ts - now)
    let key := session_key kind username
    let payload := buildPayload jti exp_unix_ts
      (meta.map (fun p => (p.1, pyStr p.2)))
    (expire (hset st key payload) key ttl, .ok ())

/-- `is_user_session_active` (`app/core/redis.py` lines 131-140): fetch the
client via `get_redis`, `HGET` the `jti` field at the session key, and
compare it with the presented `jti` (Python `stored_jti == jti`, where a
missing key or field gives `None`, never equal to a string). -/
def is_user_session_active (redis : Option Unit) (st : RedisState)
    (username jti : String) (kind : String) : Except CoreErr Bool :=
  match get_redis redis with
  | .error e => .error e
  | .ok _ => .ok (hget st (session_key kind username) "jti" == some jti)

/-- `revoke_user_session` (`app/core/redis.py` lines 143-148): fetch the
client via `get_redis`, then `DEL` the session key. -/
def revoke_user_session (redis : Option Unit) (st : RedisState)
    (username kind : String) : RedisState × Except CoreErr Unit :=
  match get_redis redis with
  | .error e => (st, .error e)
  | .ok _ => (delKey st (session_key kind username), .ok ())

/-- `hash_password` (`app/services/authentication.py` lines 18-34): the
shipped body is the stub `return ""`; the bcrypt behaviour its docstring
describes ("Return a bcrypt hash for the given plaintext password",
example digest `"$2b$12$..."`) is not implemented. -/
def hash_password (plain_password : String) : String := ""

/-- `verify_password` (`app/services/authentication.py` lines 37-50): the
shipped body is the stub `return False`; the bcrypt check its docstring
describes ("Return True if the check succeeds") is not implemented. -/
def verify_password (plain_password hashed_password : String) : Bool := false

/-- `create_access_token` (`app/services/authentication.py` lines 53-79):
the shipped body is the stub `return ""`; none of `subject`, `roles`,
`expires_delta` or `extra_claims` is consulted, although the docstring
documents a signed JWT result (`"eyJhbGciOi..."`). `expires_delta` is
carried as seconds. -/
def create_access_token (subject : String) (roles : Option (List String))
    (expires_delta : Option Int)
    (extra_claims : List (String × String)) : String := ""

/-- `decode_access_token` (`app/services/authentication.py` lines 82-95):
the shipped body is the stub `return {"key": "val"}` — a fixed mapping,
regardless of the token, with no `sub` or `roles` entry. -/
def decode_access_token (token : String) : List (String × String) :=
  [("key", "val")]

/-- `can_manage_user` (`app/services/authorization.py` lines 39-57): the
shipped body is the stub `return False` for every input, although its
docstring documents `can_manage_user("u1", "u2", ["ADMIN"]) -> True` and
`can_manage_user("u1", "u1", ["USER"]) -> True`. -/
def can_manage_user (actor_id target_id : String)
    (actor_roles : List String) : Bool := false


theorem lookupCons {β : Type} (g k : String) (v : β) (rest : List (String × β)) :
    List.lookup g ((k, v) :: rest) = if g = k then some v else List.lookup g rest := by
  show (match g == k with
    | true => some v
    | false => List.lookup g rest) = _
  by_cases h : g = k
  · simp [h]
  · simp [h, beq_false_of_ne h]

theorem lookup_not_mem {β : Type} (g : String) (m : List (String × β))
    (h : ¬ g ∈ m.map Prod.fst) : List.lookup g m = none := by
  induction m with
  | nil => rfl
  | cons p rest ih =>
    obtain ⟨k, v⟩ := p
    simp only [List.map_cons, List.mem_cons] at h
    push_neg at h
    rw [lookupCons, if_neg h.1]
    exact ih h.2

theorem lookup_append_of_none {β : Type} (g : String)
    (m1 m2 : List (String × β)) (h : List.lookup g m1 = none) :
    List.lookup g (m1 ++ m2) = List.lookup g m2 := by
  induction m1 with
  | nil => rfl
  | cons p rest ih =>
    obtain ⟨k, v⟩ := p
    rw [lookupCons] at h
    by_cases hk : g = k
    · rw [if_pos hk] at h; exact absurd h (by simp)
    · rw [if_neg hk] at h
      rw [List.cons_append, lookupCons, if_neg hk]
      exact ih h

theorem lookup_setField (fs : List (String × String)) (f v g : String) :
    List.lookup g (setField fs f v) =
      if g = f then some v else List.lookup g fs := by
  induction fs with
  | nil => simp [setField, lookupCons]
  | cons p rest ih =>
    obtain ⟨f2, v2⟩ := p
    by_cases h2 : f2 = f
    · subst h2
      by_cases hg : g = f2 <;> simp [setField, lookupCons, hg]
    · by_cases hg : g = f2
      · subst hg
        simp [setField, h2, lookupCons, Ne.symm h2]
      · simp [setField, h2, lookupCons, hg, ih]

theorem lookup_setFields_not_mem (g : String)
    (m : List (String × String)) (h : ¬ g ∈ m.map Prod.fst) :
    ∀ fs, List.lookup g (setFields fs m) = List.lookup g fs := by
  induction m with
  | nil => intro fs; rfl
  | cons p rest ih =>
    intro fs
    obtain ⟨f, v⟩ := p
    simp only [List.map_cons, List.mem_cons] at h
    push_neg at h
    have hstep : setFields fs ((f, v) :: rest) = setFields (setField fs f v) rest := rfl
    rw [hstep, ih h.2, lookup_setField, if_neg h.1]

theorem keys_setField (fs : List (String × String)) (f v : String) :
    (setField fs f v).map Prod.fst =
      if f ∈ fs.map Prod.fst then fs.map Prod.fst
      else fs.map Prod.fst ++ [f] := by
  induction fs with
  | nil => simp [setField]
  | cons p rest ih =>
    obtain ⟨f2, v2⟩ := p
    by_cases h2 : f2 = f
    · subst h2; simp [setField]
    · simp only [setField, h2, if_false, List.map_cons, List.mem_cons]
      rw [ih]
      by_cases hmem : f ∈ rest.map Prod.fst
      · simp [hmem, Ne.symm h2]
      · simp [hmem, Ne.symm h2]

theorem keysNodup_setField (fs : List (String × String)) (f v : String)
    (h : (fs.map Prod.fst).Nodup) : ((setField fs f v).map Prod.fst).Nodup := by
  rw [keys_setField]
  by_cases hmem : f ∈ fs.map Prod.fst
  · simpa [hmem]
  · simp only [hmem, if_false]
    simpa [List.nodup_append, hmem] using h

theorem keysNodup_setFields (m : List (String × String)) :
    ∀ fs, (fs.map Prod.fst).Nodup → ((setFields fs m).map Prod.fst).Nodup := by
  induction m with
  | nil => intro fs h; exact h
  | cons p rest ih =>
    intro fs h
    exact ih (setField fs p.1 p.2) (keysNodup_setField fs p.1 p.2 h)

theorem lookup_setFields_nodup (g : String) (m : List (String × String))
    (hm : (m.map Prod.fst).Nodup) :
    ∀ fs, List.lookup g (setFields fs m) =
      match List.lookup g m with
      | some v => some v
      | none => List.lookup g fs := by
  induction m with
  | nil => intro fs; rfl
  | cons p rest ih =>
    intro fs
    obtain ⟨f, v⟩ := p
    simp only [List.map_cons, List.nodup_cons] at hm
    have hstep : setFields fs ((f, v) :: rest) = setFields (setField fs f v) rest := rfl
    rw [hstep, ih hm.2 (setField fs f v), lookupCons]
    by_cases hg : g = f
    · subst hg
      rw [lookup_not_mem g rest hm.1, if_pos rfl, lookup_setField, if_pos rfl]
    · rw [if_neg hg]
      cases List.lookup g rest with
      | none => rw [lookup_setField, if_neg hg]
      | some w => rfl

theorem lookup_map_upd {β : Type} (st : List (String × β)) (k k2 : String)
    (g : β → β) :
    List.lookup k2 (st.map (fun p => if p.1 = k then (p.1, g p.2) else p)) =
      (List.lookup k2 st).map (fun r => if k2 = k then g r else r) := by
  induction st with
  | nil => rfl
  | cons p rest ih =>
    obtain ⟨k3, r⟩ := p
    simp only [List.map_cons]
    by_cases h3 : k3 = k
    · subst h3
      rw [if_pos rfl]
      by_cases h2 : k2 = k3
      · subst h2
        rw [lookupCons, lookupCons, if_pos rfl, if_pos rfl]
        simp
      · rw [lookupCons, lookupCons, if_neg h2, if_neg h2, ih]
    · rw [if_neg h3]
      by_cases h2 : k2 = k3
      · subst h2
        rw [lookupCons, lookupCons, if_pos rfl, if_pos rfl]
        simp [h3]
      · rw [lookupCons, lookupCons, if_neg h2, if_neg h2, ih]

theorem lookup_expire (st : RedisState) (k k2 : String) (t : Int) :
    List.lookup k2 (expire st k t) =
      (List.lookup k2 st).map
        (fun r => if k2 = k then { r with ttl := t } else r) := by
  exact lookup_map_upd st k k2 (fun r => { r with ttl := t })

theorem hget_expire (st : RedisState) (k k2 f : String) (t : Int) :
    hget (expire st k t) k2 f = hget st k2 f := by
  unfold hget
  rw [lookup_expire]
  cases List.lookup k2 st with
  | none => rfl
  | some r => by_cases h : k2 = k <;> simp [h]

theorem keyTTL_expire_same (st : RedisState) (k : String) (t : Int)
    (h : (List.lookup k st).isSome) : keyTTL (expire st k t) k = some t := by
  unfold keyTTL
  rw [lookup_expire]
  cases hl : List.lookup k st with
  | none => rw [hl] at h; simp at h
  | some r => simp

theorem hget_hset_same (st : RedisState) (k : String)
    (m : List (String × String)) (f : String) :
    hget (hset st k m) k f =
      List.lookup f (setFields
        (match List.lookup k st with
         | some r => r.fields
         | none => []) m) := by
  unfold hset
  cases hl : List.lookup k st with
  | none =>
    unfold hget
    rw [lookup_append_of_none k st _ hl]
    rw [lookupCons, if_pos rfl]
  | some r =>
    unfold hget
    rw [lookup_map_upd st k k (fun r => { r with fields := setFields r.fields m }), hl]
    simp

theorem lookup_hset_same_isSome (st : RedisState) (k : String)
    (m : List (String × String)) : (List.lookup k (hset st k m)).isSome := by
  unfold hset
  cases hl : List.lookup k st with
  | none =>
    rw [lookup_append_of_none k st _ hl, lookupCons, if_pos rfl]
    rfl
  | some r =>
    rw [lookup_map_upd st k k (fun r => { r with fields := setFields r.fields m }), hl]
    rfl

theorem keys_jti_exp_nodup (jti : String) (exp_unix_ts : Int) :
    (([("jti", jti), ("exp", toString exp_unix_ts)] :
      List (String × String)).map Prod.fst).Nodup := by
  simp only [List.map_cons, List.map_nil]
  refine List.nodup_cons.mpr ⟨?_, List.nodup_singleton _⟩
  simp only [List.mem_singleton]
  decide

theorem lookup_buildPayload_jti (jti : String) (exp_unix_ts : Int)
    (meta : List (String × String)) (hm : ¬ "jti" ∈ meta.map Prod.fst) :
    List.lookup "jti" (buildPayload jti exp_unix_ts meta) = some jti := by
  unfold buildPayload
  rw [lookup_setFields_not_mem _ _ hm, lookupCons, if_pos rfl]

theorem lookup_buildPayload_exp (jti : String) (exp_unix_ts : Int)
    (meta : List (String × String)) (hm : ¬ "exp" ∈ meta.map Prod.fst) :
    List.lookup "exp" (buildPayload jti exp_unix_ts meta) =
      some (toString exp_unix_ts) := by
  unfold buildPayload
  rw [lookup_setFields_not_mem _ _ hm, lookupCons, if_neg (by decide), lookupCons,
    if_pos rfl]

theorem keysNodup_buildPayload (jti : String) (exp_unix_ts : Int)
    (meta : List (String × String)) :
    ((buildPayload jti exp_unix_ts meta).map Prod.fst).Nodup := by
  unfold buildPayload
  exact keysNodup_setFields meta _ (keys_jti_exp_nodup jti exp_unix_ts)

theorem store_state_eq (st : RedisState) (now : Int) (u jti : String)
    (exp_unix_ts : Int) (kind : String) (meta : List (String × PyVal)) :
    (store_session_for_user (some ()) st now u jti exp_unix_ts kind meta).1 =
      expire
        (hset st (session_key kind u)
          (buildPayload jti exp_unix_ts (meta.map (fun p => (p.1, pyStr p.2)))))
        (session_key kind u) (max 1 (exp_unix_ts - now)) := rfl

theorem meta_keys_map (meta : List (String × PyVal)) :
    (meta.map (fun p => (p.1, pyStr p.2))).map Prod.fst = meta.map Prod.fst := by
  rw [List.map_map]
  rfl

theorem store_hget_jti (st : RedisState) (now : Int) (u jti : String)
    (exp_unix_ts : Int) (kind : String) (meta : List (String × PyVal))
    (hm : ¬ "jti" ∈ meta.map Prod.fst) :
    hget (store_session_for_user (some ()) st now u jti exp_unix_ts kind meta).1
      (session_key kind u) "jti" = some jti := by
  rw [store_state_eq, hget_expire, hget_hset_same]
  rw [lookup_setFields_nodup _ _ (keysNodup_buildPayload _ _ _)]
  rw [lookup_buildPayload_jti _ _ _ (by rw [meta_keys_map]; exact hm)]

theorem store_hget_exp (st : RedisState) (now : Int) (u jti : String)
    (exp_unix_ts : Int) (kind : String) (meta : List (String × PyVal))
    (hm : ¬ "exp" ∈ meta.map Prod.fst) :
    hget (store_session_for_user (some ()) st now u jti exp_unix_ts kind meta).1
      (session_key kind u) "exp" = some (toString exp_unix_ts) := by
  rw [store_state_eq, hget_expire, hget_hset_same]
  rw [lookup_setFields_nodup _ _ (keysNodup_buildPayload _ _ _)]
  rw [lookup_buildPayload_exp _ _ _ (by rw [meta_keys_map]; exact hm)]

theorem lookup_buildPayload_other (f jti : String) (exp_unix_ts : Int)
    (meta : List (String × String)) (hj : f ≠ "jti") (he : f ≠ "exp")
    (hm : ¬ f ∈ meta.map Prod.fst) :
    List.lookup f (buildPayload jti exp_unix_ts meta) = none := by
  unfold buildPayload
  rw [lookup_setFields_not_mem _ _ hm, lookupCons, if_neg hj, lookupCons,
    if_neg he]
  rfl

theorem store_hget_other (st : RedisState) (now : Int) (u jti : String)
    (exp_unix_ts : Int) (kind : String) (meta : List (String × PyVal))
    (f : String) (hj : f ≠ "jti") (he : f ≠ "exp")
    (hm : ¬ f ∈ meta.map Prod.fst) :
    hget (store_session_for_user (some ()) st now u jti exp_unix_ts kind meta).1
      (session_key kind u) f = hget st (session_key kind u) f := by
  rw [store_state_eq, hget_expire, hget_hset_same]
  rw [lookup_setFields_nodup _ _ (keysNodup_buildPayload _ _ _)]
  rw [lookup_buildPayload_other f _ _ _ hj he (by rw [meta_keys_map]; exact hm)]
  unfold hget
  cases List.lookup (session_key kind u) st with
  | none => rfl
  | some r => rfl

theorem store_keyTTL (st : RedisState) (now : Int) (u jti : String)
    (exp_unix_ts : Int) (kind : String) (meta : List (String × PyVal)) :
    keyTTL (store_session_for_user (some ()) st now u jti exp_unix_ts kind meta).1
      (session_key kind u) = some (max 1 (exp_unix_ts - now)) := by
  rw [store_state_eq]
  exact keyTTL_expire_same _ _ _ (lookup_hset_same_isSome st _ _)

theorem waitForMongoGo_allexc (p : Nat → MongoPing) (e : Nat → Nat)
    (h : ∀ j, p j = .exc (e j)) :
    ∀ fuel i d s le, waitForMongoGo p i fuel d s le =
      ⟨false, i + fuel, s.reverse ++ mongoBackoff d fuel,
        lastExcAfter e le i fuel⟩ := by
  intro fuel
  induction fuel with
  | zero =>
    intro i d s le
    simp [waitForMongoGo, mongoBackoff, lastExcAfter]
  | succ f ih =>
    intro i d s le
    simp only [waitForMongoGo, h i]
    rw [ih (i + 1) (d * (3 / 2)) (d :: s) (some (e i))]
    simp only [WaitTrace.mk.injEq]
    refine ⟨trivial, by omega, ?_, ?_⟩
    · simp [mongoBackoff, List.reverse_cons, List.append_assoc]
    · cases f with
      | zero => simp [lastExcAfter]
      | succ g =>
        simp only [lastExcAfter]
        have hidx : i + 1 + g = i + (g + 1) := by omega
        rw [hidx]

theorem waitForRedisGo_allexc (p : Nat → RedisPing) (e : Nat → Nat)
    (h : ∀ j, p j = .exc (e j)) :
    ∀ fuel i d s le, waitForRedisGo p i fuel d s le =
      ⟨false, i + fuel, s.reverse ++ redisBackoff d fuel,
        lastExcAfter e le i fuel⟩ := by
  intro fuel
  induction fuel with
  | zero =>
    intro i d s le
    simp [waitForRedisGo, redisBackoff, lastExcAfter]
  | succ f ih =>
    intro i d s le
    simp only [waitForRedisGo, h i]
    rw [ih (i + 1) (min (d * (3 / 2)) redisMaxDelay) (d :: s) (some (e i))]
    simp only [WaitTrace.mk.injEq]
    refine ⟨trivial, by omega, ?_, ?_⟩
    · simp [redisBackoff, List.reverse_cons, List.append_assoc]
    · cases f with
      | zero => simp [lastExcAfter]
      | succ g =>
        simp only [lastExcAfter]
        have hidx : i + 1 + g = i + (g + 1) := by omega
        rw [hidx]

theorem waitForMongoGo_inv_le (p : Nat → MongoPing) :
    ∀ fuel i d s le, (waitForMongoGo p i fuel d s le).invocations ≤ i + fuel := by
  intro fuel
  induction fuel with
  | zero =>
    intro i d s le
    simp [waitForMongoGo]
  | succ f ih =>
    intro i d s le
    simp only [waitForMongoGo]
    cases hp : p i with
    | ok => simp
    | exc a =>
      refine le_trans (ih (i + 1) (d * (3 / 2)) (d :: s) (some a)) ?_
      omega

theorem waitForRedisGo_inv_le (p : Nat → RedisPing) :
    ∀ fuel i d s le, (waitForRedisGo p i fuel d s le).invocations ≤ i + fuel := by
  intro fuel
  induction fuel with
  | zero =>
    intro i d s le
    simp [waitForRedisGo]
  | succ f ih =>
    intro i d s le
    simp only [waitForRedisGo]
    cases hp : p i with
    | pong b =>
      cases b with
      | true => simp
      | false =>
        refine le_trans (ih (i + 1) d s le) ?_
        omega
    | exc a =>
      refine le_trans
        (ih (i + 1) (min (d * (3 / 2)) redisMaxDelay) (d :: s) (some a)) ?_
      omega

theorem waitForMongoGo_firstok (p : Nat → MongoPing) :
    ∀ k fuel i d s le, k < fuel → p (i + k) = .ok →
      (∀ j, j < k → p (i + j) ≠ .ok) →
      (waitForMongoGo p i fuel d s le).success = true ∧
      (waitForMongoGo p i fuel d s le).invocations = i + k + 1 := by
  intro k
  induction k with
  | zero =>
    intro fuel i d s le hk hok _
    cases fuel with
    | zero => omega
    | succ f =>
      rw [Nat.add_zero] at hok
      simp [waitForMongoGo, hok]
  | succ k ih =>
    intro fuel i d s le hk hok hbefore
    cases fuel with
    | zero => omega
    | succ f =>
      have h0 : p i ≠ .ok := by
        have h00 := hbefore 0 (Nat.succ_pos k)
        simpa using h00
      cases hp : p i with
      | ok => exact absurd hp h0
      | exc a =>
        simp only [waitForMongoGo, hp]
        have hok2 : p (i + 1 + k) = .ok := by
          have hidx : i + 1 + k = i + (k + 1) := by omega
          rw [hidx]
          exact hok
        have hbefore2 : ∀ j, j < k → p (i + 1 + j) ≠ .ok := by
          intro j hj
          have hidx : i + 1 + j = i + (j + 1) := by omega
          rw [hidx]
          exact hbefore (j + 1) (by omega)
        have hres := ih f (i + 1) (d * (3 / 2)) (d :: s) (some a) (by omega)
          hok2 hbefore2
        refine ⟨hres.1, ?_⟩
        rw [hres.2]
        omega

theorem waitForRedisGo_firstok (p : Nat → RedisPing) :
    ∀ k fuel i d s le, k < fuel → p (i + k) = .pong true →
      (∀ j, j < k → p (i + j) ≠ .pong true) →
      (waitForRedisGo p i fuel d s le).success = true ∧
      (waitForRedisGo p i fuel d s le).invocations = i + k + 1 := by
  intro k
  induction k with
  | zero =>
    intro fuel i d s le hk hok _
    cases fuel with
    | zero => omega
    | succ f =>
      rw [Nat.add_zero] at hok
      simp [waitForRedisGo, hok]
  | succ k ih =>
    intro fuel i d s le hk hok hbefore
    cases fuel with
    | zero => omega
    | succ f =>
      have h0 : p i ≠ .pong true := by
        have h00 := hbefore 0 (Nat.succ_pos k)
        simpa using h00
      have hok2 : p (i + 1 + k) = .pong true := by
        have hidx : i + 1 + k = i + (k + 1) := by omega
        rw [hidx]
        exact hok
      have hbefore2 : ∀ j, j < k → p (i + 1 + j) ≠ .pong true := by
        intro j hj
        have hidx : i + 1 + j = i + (j + 1) := by omega
        rw [hidx]
        exact hbefore (j + 1) (by omega)
      cases hp : p i with
      | pong b =>
        cases b with
        | true => exact absurd hp h0
        | false =>
          simp only [waitForRedisGo, hp]
          have hres := ih f (i + 1) d s le (by omega) hok2 hbefore2
          refine ⟨hres.1, ?_⟩
          rw [hres.2]
          omega
      | exc a =>
        simp only [waitForRedisGo, hp]
        have hres := ih f (i + 1) (min (d * (3 / 2)) redisMaxDelay) (d :: s)
          (some a) (by omega) hok2 hbefore2
        refine ⟨hres.1, ?_⟩
        rw [hres.2]
        omega

theorem waitForRedisGo_falsy_step (p : Nat → RedisPing) (i fuel : Nat)
    (d : ℚ) (s : List ℚ) (le : Option Nat) (h : p i = .pong false) :
    waitForRedisGo p i (fuel + 1) d s le = waitForRedisGo p (i + 1) fuel d s le := by
  simp only [waitForRedisGo, h]

/-- C2 (code bug): the shipped bodies are stubs — `hash_password` returns
`""` and `verify_password` returns `False` — so
`verify_password p (hash_password p)` is false for every plaintext `p`,
contradicting the claimed round-trip, the functions' own docstrings and
spec §8 (concretely: false at p = "secret"). -/
theorem password_stub_roundtrip_false (p : String) :
    verify_password p (hash_password p) = false ∧
    verify_password "secret" (hash_password "secret") = false :=
  ⟨rfl, rfl⟩

/-- C8 (code bug): the shipped `can_manage_user` body is the stub
`return False`, so it returns false for every input — including
`("u1", "u2", ["ADMIN"])` and `("u1", "u1", [])`, where the claim (and the
function's own docstring examples) require true. -/
theorem can_manage_user_stub_false (a t : String) (rs : List String) :
    can_manage_user a t rs = false ∧
    can_manage_user "u1" "u2" ["ADMIN"] = false ∧
    can_manage_user "u1" "u1" [] = false :=
  ⟨rfl, rfl, rfl⟩

/-- C9: `store_session_for_user` sets the session key's time-to-live to
exactly `max 1 (exp_unix_ts - now)` seconds computed at write time — at
least 1 even when `exp_unix_ts` is in the past. -/
theorem session_ttl_clamped (st : RedisState) (now : Int) (u jti : String)
    (exp_unix_ts : Int) (kind : String) (meta : List (String × PyVal)) :
    keyTTL
      (store_session_for_user (some ()) st now u jti exp_unix_ts kind meta).1
      (session_key kind u) = some (max 1 (exp_unix_ts - now)) :=
  store_keyTTL st now u jti exp_unix_ts kind meta

/-- C10: with the key-value singleton unset, `store_session_for_user`,
`is_user_session_active` and `revoke_user_session` all fail with the
not-initialized error before issuing any command, leaving the store state
unchanged. -/
theorem uninitialized_store_fails_fast (st : RedisState) (now : Int)
    (u jti : String) (exp_unix_ts : Int) (kind : String)
    (meta : List (String × PyVal)) :
    store_session_for_user none st now u jti exp_unix_ts kind meta =
      (st, .error .notInitialized) ∧
    is_user_session_active none st u jti kind =
      .error CoreErr.notInitialized ∧
    revoke_user_session none st u kind = (st, .error .notInitialized) :=
  ⟨rfl, rfl, rfl⟩

/-- C7: for both lifespan wrappers, on every exit path after the readiness
probe succeeded (any init/body outcome) the client is closed and the
singleton cleared, while a probe failure leaves the singleton assigned to
the new client and the client unclosed. -/
theorem lifespan_cleanup_asymmetry (st : LifespanState) (c : Nat)
    (initOk : Bool) (body : ExitPath) (hc : ¬ c ∈ st.closed) :
    ((beanie_lifespan st c true initOk body).1.singleton = none ∧
      c ∈ (beanie_lifespan st c true initOk body).1.closed) ∧
    ((beanie_lifespan st c false initOk body).1.singleton = some c ∧
      ¬ c ∈ (beanie_lifespan st c false initOk body).1.closed) ∧
    ((redis_lifespan st c true body).1.singleton = none ∧
      c ∈ (redis_lifespan st c true body).1.closed) ∧
    ((redis_lifespan st c false body).1.singleton = some c ∧
      ¬ c ∈ (redis_lifespan st c false body).1.closed) := by
  refine ⟨⟨?_, ?_⟩, ⟨?_, ?_⟩, ⟨?_, ?_⟩, ⟨?_, ?_⟩⟩ <;>
    simp [beanie_lifespan, redis_lifespan, hc]

/-- Witness for C7 at a concrete initial state and client. -/
theorem lifespan_cleanup_asymmetry_witness :
    (¬ (0 : Nat) ∈ (⟨none, []⟩ : LifespanState).closed) ∧
    (((beanie_lifespan ⟨none, []⟩ 0 true true .normal).1.singleton = none ∧
      0 ∈ (beanie_lifespan ⟨none, []⟩ 0 true true .normal).1.closed) ∧
    ((beanie_lifespan ⟨none, []⟩ 0 false true .normal).1.singleton = some 0 ∧
      ¬ 0 ∈ (beanie_lifespan ⟨none, []⟩ 0 false true .normal).1.closed) ∧
    ((redis_lifespan ⟨none, []⟩ 0 true .normal).1.singleton = none ∧
      0 ∈ (redis_lifespan ⟨none, []⟩ 0 true .normal).1.closed) ∧
    ((redis_lifespan ⟨none, []⟩ 0 false .normal).1.singleton = some 0 ∧
      ¬ 0 ∈ (redis_lifespan ⟨none, []⟩ 0 false .normal).1.closed)) :=
  ⟨by simp, lifespan_cleanup_asymmetry ⟨none, []⟩ 0 true .normal (by simp)⟩

/-- C6: each bootstrapper invokes the probe at most `attempts` times,
returns immediately on the first successful probe, and — when every probe
fails by raising — fails after exactly `attempts` invocations with the last
observed error recorded for the final not-ready error to wrap. -/
theorem bootstrap_attempt_budget :
    (∀ p attempts d, (wait_for_mongo p attempts d).invocations ≤ attempts) ∧
    (∀ p attempts d, (wait_for_redis p attempts d).invocations ≤ attempts) ∧
    (∀ p attempts d k, k < attempts → p k = MongoPing.ok →
      (∀ j, j < k → p j ≠ MongoPing.ok) →
      (wait_for_mongo p attempts d).success = true ∧
      (wait_for_mongo p attempts d).invocations = k + 1) ∧
    (∀ p attempts d k, k < attempts → p k = RedisPing.pong true →
      (∀ j, j < k → p j ≠ RedisPing.pong true) →
      (wait_for_redis p attempts d).success = true ∧
      (wait_for_redis p attempts d).invocations = k + 1) ∧
    (∀ (p : Nat → MongoPing) (e : Nat → Nat) attempts d,
      0 < attempts → (∀ j, p j = MongoPing.exc (e j)) →
      (wait_for_mongo p attempts d).success = false ∧
      (wait_for_mongo p attempts d).invocations = attempts ∧
      (wait_for_mongo p attempts d).lastErr = some (e (attempts - 1))) ∧
    (∀ (p : Nat → RedisPing) (e : Nat → Nat) attempts d,
      0 < attempts → (∀ j, p j = RedisPing.exc (e j)) →
      (wait_for_redis p attempts d).success = false ∧
      (wait_for_redis p attempts d).invocations = attempts ∧
      (wait_for_redis p attempts d).lastErr = some (e (attempts - 1))) := by
  refine ⟨?_, ?_, ?_, ?_, ?_, ?_⟩
  · intro p attempts d
    simpa using waitForMongoGo_inv_le p attempts 0 d [] none
  · intro p attempts d
    simpa using waitForRedisGo_inv_le p attempts 0 d [] none
  · intro p attempts d k hk hok hbefore
    have h := waitForMongoGo_firstok p k attempts 0 d [] none hk
      (by simpa using hok) (by intro j hj; simpa using hbefore j hj)
    exact ⟨h.1, by simpa using h.2⟩
  · intro p attempts d k hk hok hbefore
    have h := waitForRedisGo_firstok p k attempts 0 d [] none hk
      (by simpa using hok) (by intro j hj; simpa using hbefore j hj)
    exact ⟨h.1, by simpa using h.2⟩
  · intro p e attempts d hpos h
    unfold wait_for_mongo
    rw [waitForMongoGo_allexc p e h attempts 0 d [] none]
    refine ⟨rfl, by simp, ?_⟩
    cases attempts with
    | zero => omega
    | succ f => simp [lastExcAfter]
  · intro p e attempts d hpos h
    unfold wait_for_redis
    rw [waitForRedisGo_allexc p e h attempts 0 d [] none]
    refine ⟨rfl, by simp, ?_⟩
    cases attempts with
    | zero => omega
    | succ f => simp [lastExcAfter]

/-- Witness for C6: a probe that always raises error 7, with `attempts=3`,
fails after exactly 3 invocations wrapping error 7. -/
theorem bootstrap_attempt_budget_witness :
    ((0 : Nat) < 3 ∧
      (∀ j : Nat, (fun _ => MongoPing.exc 7) j = MongoPing.exc 7)) ∧
    ((wait_for_mongo (fun _ => MongoPing.exc 7) 3 (1 / 2)).success = false ∧
      (wait_for_mongo (fun _ => MongoPing.exc 7) 3 (1 / 2)).invocations = 3 ∧
      (wait_for_mongo (fun _ => MongoPing.exc 7) 3 (1 / 2)).lastErr = some 7) :=
  ⟨⟨by decide, fun _ => rfl⟩,
    bootstrap_attempt_budget.2.2.2.2.1 (fun _ => MongoPing.exc 7) (fun _ => 7)
      3 (1 / 2) (by decide) (fun _ => rfl)⟩

/-- C5 counterexample: in the key-value-store loop, a probe invocation that
fails by returning a falsy response is not followed by any sleep — here a
single failing invocation (the run does not succeed, one invocation is
consumed) produces an empty sleep sequence, contradicting "every failed
probe invocation is followed by a sleep of the current delay". -/
theorem backoff_claim_counterexample :
    (wait_for_redis (fun _ => RedisPing.pong false) 1 (1 / 4)).success = false ∧
    (wait_for_redis (fun _ => RedisPing.pong false) 1 (1 / 4)).invocations = 1 ∧
    (wait_for_redis (fun _ => RedisPing.pong false) 1 (1 / 4)).sleeps = [] :=
  ⟨rfl, rfl, rfl⟩

/-- C5 amended: every probe invocation that fails by raising is followed by
a sleep of the current delay and the update `delay = min(delay * 1.5,
maxDelay)` — uncapped `delay * 1.5` in the document-store loop, capped at
3.0 in the key-value-store loop — with defaults 10 attempts starting at
0.5s (document store) and 20 attempts starting at 0.25s (key-value store);
but a key-value probe invocation that returns a falsy response consumes an
attempt with no sleep and no delay or error update. -/
theorem backoff_sleep_schedule :
    (∀ (p : Nat → MongoPing) (e : Nat → Nat), (∀ j, p j = MongoPing.exc (e j)) →
      (∀ attempts d,
        (wait_for_mongo p attempts d).sleeps = mongoBackoff d attempts) ∧
      (wait_for_mongo_default p).sleeps = mongoBackoff (1 / 2) 10) ∧
    (∀ (p : Nat → RedisPing) (e : Nat → Nat), (∀ j, p j = RedisPing.exc (e j)) →
      (∀ attempts d,
        (wait_for_redis p attempts d).sleeps = redisBackoff d attempts) ∧
      (wait_for_redis_default p).sleeps = redisBackoff (1 / 4) 20) ∧
    (∀ p i fuel d s le, p i = RedisPing.pong false →
      waitForRedisGo p i (fuel + 1) d s le =
        waitForRedisGo p (i + 1) fuel d s le) := by
  refine ⟨?_, ?_, ?_⟩
  · intro p e h
    have hall : ∀ attempts d,
        (wait_for_mongo p attempts d).sleeps = mongoBackoff d attempts := by
      intro attempts d
      unfold wait_for_mongo
      rw [waitForMongoGo_allexc p e h attempts 0 d [] none]
      simp
    exact ⟨hall, hall 10 (1 / 2)⟩
  · intro p e h
    have hall : ∀ attempts d,
        (wait_for_redis p attempts d).sleeps = redisBackoff d attempts := by
      intro attempts d
      unfold wait_for_redis
      rw [waitForRedisGo_allexc p e h attempts 0 d [] none]
      simp
    exact ⟨hall, hall 20 (1 / 4)⟩
  · intro p i fuel d s le h
    exact waitForRedisGo_falsy_step p i fuel d s le h

/-- Witness for C5 (amended) at concrete always-raising probes and a
concrete falsy step. -/
theorem backoff_sleep_schedule_witness :
    ((∀ j : Nat, (fun _ => MongoPing.exc 0) j = MongoPing.exc 0) ∧
      (∀ j : Nat, (fun _ => RedisPing.exc 0) j = RedisPing.exc 0) ∧
      (fun _ => RedisPing.pong false) 0 = RedisPing.pong false) ∧
    ((wait_for_mongo (fun _ => MongoPing.exc 0) 2 (1 / 2)).sleeps =
        mongoBackoff (1 / 2) 2 ∧
      (wait_for_redis (fun _ => RedisPing.exc 0) 2 (1 / 4)).sleeps =
        redisBackoff (1 / 4) 2 ∧
      waitForRedisGo (fun _ => RedisPing.pong false) 0 1 (1 / 4) [] none =
        waitForRedisGo (fun _ => RedisPing.pong false) 1 0 (1 / 4) [] none) :=
  ⟨⟨fun _ => rfl, fun _ => rfl, rfl⟩,
    ((backoff_sleep_schedule.1 (fun _ => MongoPing.exc 0) (fun _ => 0)
        (fun _ => rfl)).1 2 (1 / 2)),
    ((backoff_sleep_schedule.2.1 (fun _ => RedisPing.exc 0) (fun _ => 0)
        (fun _ => rfl)).1 2 (1 / 4)),
    (backoff_sleep_schedule.2.2 (fun _ => RedisPing.pong false) 0 0 (1 / 4)
      [] none rfl)⟩

/-- C3: two stores for the same (user, kind) leave only the second token id
active — `is_user_session_active` is false for the first `jti` and true for
the second (for distinct token ids, with `meta` not spoofing a `jti`
field). -/
theorem session_overwrite_single_active (st : RedisState) (now1 now2 : Int)
    (u jti1 jti2 : String) (exp1 exp2 : Int) (kind : String)
    (meta1 meta2 : List (String × PyVal)) (hne : jti1 ≠ jti2)
    (hm : ¬ "jti" ∈ meta2.map Prod.fst) :
    is_user_session_active (some ())
      (store_session_for_user (some ())
        (store_session_for_user (some ()) st now1 u jti1 exp1 kind meta1).1
        now2 u jti2 exp2 kind meta2).1 u jti1 kind = .ok false ∧
    is_user_session_active (some ())
      (store_session_for_user (some ())
        (store_session_for_user (some ()) st now1 u jti1 exp1 kind meta1).1
        now2 u jti2 exp2 kind meta2).1 u jti2 kind = .ok true := by
  have hj := store_hget_jti
    (store_session_for_user (some ()) st now1 u jti1 exp1 kind meta1).1
    now2 u jti2 exp2 kind meta2 hm
  unfold is_user_session_active get_redis
  rw [hj]
  constructor
  · simp [beq_eq_false_iff_ne, Ne.symm hne]
  · simp

/-- Witness for C3 at concrete values ("alice", token ids "a" then "b"). -/
theorem session_overwrite_single_active_witness :
    (("a" : String) ≠ "b" ∧
      ¬ "jti" ∈ (([] : List (String × PyVal)).map Prod.fst)) ∧
    (is_user_session_active (some ())
      (store_session_for_user (some ())
        (store_session_for_user (some ()) [] 0 "alice" "a" 10 "access" []).1
        0 "alice" "b" 10 "access" []).1 "alice" "a" "access" = .ok false ∧
    is_user_session_active (some ())
      (store_session_for_user (some ())
        (store_session_for_user (some ()) [] 0 "alice" "a" 10 "access" []).1
        0 "alice" "b" 10 "access" []).1 "alice" "b" "access" = .ok true) :=
  ⟨⟨by decide, by simp⟩,
    session_overwrite_single_active [] 0 0 "alice" "a" "b" 10 10 "access"
      [] [] (by decide) (by simp)⟩

/-- C4 counterexample: storing a session with meta field `ip`, then storing
a new session for the same (user, kind) with empty meta, leaves the old
`ip` field in the record (Redis `HSET` merges fields, it does not replace
the record), contradicting "the stored record contains exactly the fields
of the new call". -/
theorem hset_merge_counterexample :
    hget (store_session_for_user (some ())
        (store_session_for_user (some ()) [] 0 "alice" "jti1" 100 "access"
          [("ip", PyVal.s "1.2.3.4")]).1
        0 "alice" "jti2" 100 "access" []).1
      (session_key "access" "alice") "ip" = some "1.2.3.4" ∧
    hget (store_session_for_user (some ())
        (store_session_for_user (some ()) [] 0 "alice" "jti1" 100 "access"
          [("ip", PyVal.s "1.2.3.4")]).1
        0 "alice" "jti2" 100 "access" []).1
      (session_key "access" "alice") "jti" = some "jti2" :=
  ⟨rfl, rfl⟩

/-- C4 amended: a later `store_session_for_user` for the same key overwrites
the fields it writes — `jti`, `exp` and its own meta fields — and replaces
the TTL, but any field written by an earlier call that is absent from the
new call's payload keeps its old value instead of being removed. -/
theorem session_store_field_semantics (st : RedisState) (now : Int)
    (u jti : String) (exp_unix_ts : Int) (kind : String)
    (meta : List (String × PyVal)) (f : String)
    (hj : ¬ "jti" ∈ meta.map Prod.fst) (he : ¬ "exp" ∈ meta.map Prod.fst)
    (hf1 : f ≠ "jti") (hf2 : f ≠ "exp") (hfm : ¬ f ∈ meta.map Prod.fst) :
    hget (store_session_for_user (some ()) st now u jti exp_unix_ts kind
        meta).1 (session_key kind u) "jti" = some jti ∧
    hget (store_session_for_user (some ()) st now u jti exp_unix_ts kind
        meta).1 (session_key kind u) "exp" = some (toString exp_unix_ts) ∧
    hget (store_session_for_user (some ()) st now u jti exp_unix_ts kind
        meta).1 (session_key kind u) f = hget st (session_key kind u) f ∧
    keyTTL (store_session_for_user (some ()) st now u jti exp_unix_ts kind
        meta).1 (session_key kind u) = some (max 1 (exp_unix_ts - now)) :=
  ⟨store_hget_jti st now u jti exp_unix_ts kind meta hj,
    store_hget_exp st now u jti exp_unix_ts kind meta he,
    store_hget_other st now u jti exp_unix_ts kind meta f hf1 hf2 hfm,
    store_keyTTL st now u jti exp_unix_ts kind meta⟩

/-- Witness for C4 (amended) at a concrete store onto a record holding an
old `ip` field. -/
theorem session_store_field_semantics_witness :
    ((¬ "jti" ∈ (([] : List (String × PyVal)).map Prod.fst)) ∧
      (¬ "exp" ∈ (([] : List (String × PyVal)).map Prod.fst)) ∧
      ("ip" : String) ≠ "jti" ∧ ("ip" : String) ≠ "exp" ∧
      (¬ "ip" ∈ (([] : List (String × PyVal)).map Prod.fst))) ∧
    (hget (store_session_for_user (some ())
        [(session_key "access" "alice", ⟨[("ip", "old")], 5⟩)] 0 "alice"
        "j2" 100 "access" []).1 (session_key "access" "alice") "jti" =
      some "j2" ∧
    hget (store_session_for_user (some ())
        [(session_key "access" "alice", ⟨[("ip", "old")], 5⟩)] 0 "alice"
        "j2" 100 "access" []).1 (session_key "access" "alice") "exp" =
      some (toString (100 : Int)) ∧
    hget (store_session_for_user (some ())
        [(session_key "access" "alice", ⟨[("ip", "old")], 5⟩)] 0 "alice"
        "j2" 100 "access" []).1 (session_key "access" "alice") "ip" =
      hget [(session_key "access" "alice", ⟨[("ip", "old")], 5⟩)]
        (session_key "access" "alice") "ip" ∧
    keyTTL (store_session_for_user (some ())
        [(session_key "access" "alice", ⟨[("ip", "old")], 5⟩)] 0 "alice"
        "j2" 100 "access" []).1 (session_key "access" "alice") =
      some (max 1 ((100 : Int) - 0))) :=
  ⟨⟨by simp, by simp, by decide, by decide, by simp⟩,
    session_store_field_semantics
      [(session_key "access" "alice", ⟨[("ip", "old")], 5⟩)] 0 "alice" "j2"
      100 "access" [] "ip" (by simp) (by simp) (by decide) (by decide)
      (by simp)⟩

/-- C1 (code bug): `create_access_token` is the stub `return ""` and
`decode_access_token` the stub `return {"key": "val"}` — decoding any
produced token yields that fixed mapping, which has no `sub` and no `roles`
entry, so the decoded claims cannot carry the subject or the roles the
claim (and the functions' own docstrings) require. -/
theorem token_stub_no_subject (s : String) (roles : Option (List String))
    (expires_delta : Option Int) (extra_claims : List (String × String)) :
    create_access_token s roles expires_delta extra_claims = "" ∧
    decode_access_token
      (create_access_token s roles expires_delta extra_claims) =
      [("key", "val")] ∧
    List.lookup "sub"
      (decode_access_token
        (create_access_token s roles expires_delta extra_claims)) = none ∧
    List.lookup "roles"
      (decode_access_token
        (create_access_token s roles expires_delta extra_claims)) = none :=
  ⟨rfl, rfl, rfl, rfl⟩
